import Mathlib

/-!
Verification of the appointment-scheduling core of the dental-clinic agent.

Shallow embedding of the relevant source functions:
  * `src/src/services/calcom.py`: `_ensure_iso_utc`, `generate_slots_from_schedule`,
    `get_availability` (range clamping, busy-interval construction, slot filtering),
    `_normalize_name`, `_names_match`, `_normalize_phone`, `_phones_match`,
    `_extract_attendee_phone`, `_matches_appointment_time`,
    `find_booking_by_patient_info`, `find_all_bookings_by_patient_info`.
  * `src/src/tools/appointments.py`: the weekend fast-path of `get_availability`,
    the timestamp validation and the cancel-then-book execution core of
    `reschedule_appointment`.

Time is modelled as an `Int` count of minutes on a linear timeline.  A
timezone is modelled by its fixed offset `tz_offset` in minutes from UTC
(local = utc + tz_offset); daylight-saving transitions are outside the model.
Calendar days are the blocks `[1440*d, 1440*(d+1))`; day index `0` is chosen
to be a Monday, so `isoweekday` below matches Python's `datetime.isoweekday`.
Python's `//` and `%` on ints (floor division) agree with `Int.ediv` /
`Int.emod` for the positive divisors used here (60, 1440, 7).
-/

namespace Dental

/-- ISO weekday (1 = Monday .. 7 = Sunday) of a day index, day 0 being a Monday. -/
def isoweekday (d : Int) : Int := (d % 7) + 1

/-- Result of a successful Python `datetime.fromisoformat` on a timestamp string:
the wall-clock value in minutes together with the explicit UTC offset (in
minutes) when the string carries one; `offset = none` models a timezone-naive
string.  An unparsable string, on which `fromisoformat` raises `ValueError`,
is modelled as `none` at the `Option ParsedTs` layer wherever parsing occurs. -/
structure ParsedTs where
  wall : Int
  offset : Option Int
deriving DecidableEq, Repr

/-- UTC instant denoted by a parsed timestamp: aware strings subtract their
offset, naive strings are taken as UTC where the source does so. -/
def ParsedTs.utc (p : ParsedTs) : Int :=
  match p.offset with
  | some o => p.wall - o
  | none => p.wall

/-- Embeds `_ensure_iso_utc` (src/src/services/calcom.py lines 43-53): parse the
string (`none` models the `ValueError` propagating out of the function); if the
parse succeeds and the datetime is timezone-naive, *assume UTC*; return the
resulting UTC instant. -/
def ensure_iso_utc (t : Option ParsedTs) : Option Int :=
  t.map ParsedTs.utc

/-- Embeds the `new_start_time` validation of `reschedule_appointment`
(src/src/tools/appointments.py lines 740-746): the timestamp is accepted iff
`datetime.fromisoformat` succeeds; a timezone-naive but parsable string passes. -/
def reschedule_validate_new_time (parsed : Option ParsedTs) : Bool :=
  parsed.isSome

/-- One Cal.com working-hours rule: `days` (ISO weekdays), `startTime` and
`endTime` in minutes from midnight (fields of `schedule["workingHours"][i]`). -/
structure WorkRule where
  days : List Int
  startTime : Int
  endTime : Int
deriving DecidableEq, Repr

/-- The schedule object as used by `generate_slots_from_schedule`. -/
structure Schedule where
  workingHours : List WorkRule
deriving DecidableEq, Repr

/-- The inner `while slot_start + duration <= work_end` loop of
`generate_slots_from_schedule` (src/src/services/calcom.py lines 152-162),
written with explicit fuel so that it is structurally recursive; the callers
supply fuel that covers every iteration the Python loop performs (the Python
loop terminates only for `duration >= 1`, which the claims assume). -/
def slot_loop : Nat → Int → Int → Int → Int → List Int
  | 0, _, _, _, _ => []
  | Nat.succ n, slot_start, work_end, dur, min_booking =>
    if slot_start + dur ≤ work_end then
      (if min_booking ≤ slot_start then [slot_start] else []) ++
        slot_loop n (slot_start + dur) work_end dur min_booking
    else []

/-- Fuel that covers every iteration of the inner slot loop. -/
def slot_fuel (slot_start work_end dur : Int) : Nat :=
  (work_end - slot_start).toNat / dur.toNat + 1

/-- The `while current_dt_tz <= end_dt_tz` day loop of
`generate_slots_from_schedule` (src/src/services/calcom.py lines 140-168).
The midnight datetime `current_dt_tz` is represented by its local day index
`d` (its instant is `d * 1440`).  `work_start`/`work_end_min` are the rule's
`startTime`/`endTime`; the `hour`/`minute` reconstruction of the source
(`startTime // 60`, `startTime % 60`) is kept literally.  A day is emitted
only when it is a working weekday and its slot list is nonempty. -/
def day_loop : Nat → Int → Int → List Int → Int → Int → Int → Int → List (Int × List Int)
  | 0, _, _, _, _, _, _, _ => []
  | Nat.succ n, d, end_local, work_days, work_start, work_end_min, dur, min_booking =>
    if d * 1440 ≤ end_local then
      (if isoweekday d ∈ work_days then
        let slot_start := d * 1440 + 60 * (work_start / 60) + (work_start % 60)
        let work_end := d * 1440 + 60 * (work_end_min / 60) + (work_end_min % 60)
        let day_slots := slot_loop (slot_fuel slot_start work_end dur) slot_start work_end dur min_booking
        if day_slots = [] then [] else [(d, day_slots)]
      else []) ++ day_loop n (d + 1) end_local work_days work_start work_end_min dur min_booking
    else []

/-- Embeds `generate_slots_from_schedule` (src/src/services/calcom.py lines
92-171) on the local timeline of the requested timezone: `start_local` and
`end_local` are the range endpoints converted to that timezone, and
`ambient_now_local` is the value of the `datetime.now(...)` call the source
performs *inside* the function (line 132), converted to the same timezone.
Slots are local instants in minutes; result keys are local day indices
(the source's `date_key` strings).  With an empty `workingHours` list the
source logs a warning and returns `{}`. -/
def generate_slots_from_schedule (schedule : Schedule) (start_local end_local : Int)
    (duration_minutes : Int) (ambient_now_local : Int) : List (Int × List Int) :=
  match schedule.workingHours with
  | [] => []
  | wh :: _ =>
    let min_booking := ambient_now_local + 10
    let d0 := (start_local / 1440)
    let fuel := (end_local - d0 * 1440).toNat / 1440 + 1
    day_loop fuel d0 end_local wh.days wh.startTime wh.endTime duration_minutes min_booking

/-- A raw booking record as consumed by the busy-interval construction of
`get_availability` (src/src/services/calcom.py lines 827-845).  `start` is
`booking.get("start") or booking.get("startTime")`: the outer `none` models a
missing/falsy field, the inner `none` an unparsable timestamp string (the
`except` branch logs a warning and skips the record).  `duration` is
`booking.get("duration", 15)`. -/
structure RawBooking where
  start : Option (Option ParsedTs)
  duration : Option Int
deriving DecidableEq, Repr

/-- A raw booking record is well-formed when its start field is present and
its timestamp parses. -/
def raw_booking_ok (b : RawBooking) : Bool :=
  match b.start with
  | some (some _) => true
  | _ => false

/-- Embeds the `blocked_times` construction of `get_availability`
(src/src/services/calcom.py lines 824-845): each parsable booking contributes
the half-open local interval `(start, start + duration)`; records with a
missing start field, or whose timestamp raises in `fromisoformat`, are
logged and skipped.  The Python `set` of pairs is modelled as a list (only
membership is ever used). -/
def build_blocked_times (tz_offset : Int) (bookings : List RawBooking) : List (Int × Int) :=
  bookings.filterMap fun b =>
    match b.start with
    | some (some ts) =>
      let dur := b.duration.getD 15
      let booking_local := ts.utc + tz_offset
      some (booking_local, booking_local + dur)
    | _ => none

/-- The per-slot overlap test of `get_availability` (src/src/services/calcom.py
lines 861-868): a slot is blocked iff some busy interval satisfies
`slot_dt < booking_end and slot_end_dt > booking_start`. -/
def slot_blocked (slot_dt dur : Int) (blocked : List (Int × Int)) : Bool :=
  blocked.any fun bk => decide (slot_dt < bk.2) && decide (bk.1 < slot_dt + dur)

/-- The availability filtering loop of `get_availability`
(src/src/services/calcom.py lines 849-876): keep, per date, the slots that are
not blocked, and drop dates whose remaining slot list is empty. -/
def filter_available (all_slots : List (Int × List Int)) (blocked : List (Int × Int))
    (dur : Int) : List (Int × List Int) :=
  (all_slots.map fun p => (p.1, p.2.filter fun s => !slot_blocked s dur blocked)).filter
    fun p => !p.2.isEmpty

/-- Association-list lookup used to state per-date properties of the slot
mappings (`slots_by_date[date_key]`, absent keys giving the empty list). -/
def lookup_day (m : List (Int × List Int)) (d : Int) : List Int :=
  match m.find? (fun p => p.1 == d) with
  | some p => p.2
  | none => []

/-- Result shape of `get_availability`: the `"data"` mapping. -/
structure AvailabilityResult where
  data : List (Int × List Int)
deriving DecidableEq, Repr

/-- Embeds the core of `get_availability` (src/src/services/calcom.py lines
772-884) after timestamp parsing: the 90-day range enforcement (lines
792-803), slot generation in the requested timezone, and busy-interval
filtering.  `start_ts`/`end_ts` are the parsed caller timestamps
(`_ensure_iso_utc` keeps a non-UTC offset and only tags naive strings as
UTC, so `start_dt`/`end_dt` carry each caller string's own offset).
`start_dt.date()` / `end_dt.date()` are therefore the *wall-clock* dates in
that own offset — `wall / 1440` here — and the source compares them against
the UTC dates of `today` and `max_date`; the replacement values `today` and
`max_date.replace(hour=23, minute=59, second=59)` are UTC instants, and
downstream only the instants matter (`astimezone`).  `ambient_now_utc`
models the `datetime.now(...)` reads (line 794 and, inside
`generate_slots_from_schedule`, line 132); `bookings` is the list the remote
service returns for the range.  `today` is today at 00:00:00 UTC and
`max_date` is `today + 90 days`; the end cap is `max_date` at 23:59:59,
modelled at minute resolution as `max_date + 1439`. -/
def calcom_get_availability (schedule : Schedule) (bookings : List RawBooking)
    (start_ts end_ts : ParsedTs) (tz_offset : Int) (duration_minutes : Int)
    (ambient_now_utc : Int) : AvailabilityResult :=
  let today := 1440 * (ambient_now_utc / 1440)
  let max_date := today + 90 * 1440
  let start1 := if (start_ts.wall / 1440) < (today / 1440) then today else start_ts.utc
  let end1 := if (max_date / 1440) < (end_ts.wall / 1440) then max_date + 1439 else end_ts.utc
  let all_slots := generate_slots_from_schedule schedule (start1 + tz_offset) (end1 + tz_offset)
      duration_minutes (ambient_now_utc + tz_offset)
  let blocked := build_blocked_times tz_offset bookings
  ⟨filter_available all_slots blocked duration_minutes⟩

/-- Outcome of the weekend fast-path of the tool-layer `get_availability`
(src/src/tools/appointments.py lines 110-123): `closedWeekend` is the early
return issued *before* any call to the remote service; `proceedRemote` means
the function falls through to the live Cal.com query. -/
inductive ToolAvailability
  | closedWeekend
  | proceedRemote
deriving DecidableEq, Repr

/-- Embeds the weekend fast-path (src/src/tools/appointments.py lines 110-121):
`date_diff = (end_dt - start_dt).days` (Python `timedelta.days` floors) and
the check fires when `date_diff <= 2` and the *start* day's ISO weekday, in
the requested timezone, is Saturday or Sunday. -/
def tools_weekend_guard (start_utc end_utc tz_offset : Int) : ToolAvailability :=
  let date_diff := ((end_utc - start_utc) / 1440)
  if date_diff ≤ 2 ∧ isoweekday (((start_utc + tz_offset) / 1440)) ∈ ([6, 7] : List Int) then
    .closedWeekend
  else .proceedRemote

/-- The range between `start` and `end` touches only non-working (weekend)
days: every local calendar day from the start's day through the end's day has
ISO weekday Saturday or Sunday. -/
def range_days_all_weekend (start_utc end_utc tz_offset : Int) : Prop :=
  ∀ d : Int, ((start_utc + tz_offset) / 1440) ≤ d →
    d ≤ ((end_utc + tz_offset) / 1440) → isoweekday d ∈ ([6, 7] : List Int)

/-- Python strings are modelled as their character lists (`String.data`), so
that every matcher operation computes by structural recursion. -/
abbrev Str := List Char

/-- Helper for `split_words`: accumulates the current word (reversed) while
scanning the characters. -/
def split_words_aux : List Char → List Char → List (List Char)
  | acc, [] => if acc = [] then [] else [acc.reverse]
  | acc, c :: cs =>
    if c.isWhitespace then
      (if acc = [] then [] else [acc.reverse]) ++ split_words_aux [] cs
    else split_words_aux (c :: acc) cs

/-- Python's `str.split()` with no argument: split on runs of whitespace,
discarding empty pieces. -/
def split_words (s : Str) : List Str :=
  split_words_aux [] s

/-- Embeds `_normalize_name` (src/src/services/calcom.py lines 327-340):
lowercase, split on whitespace.  The Python `set` of words is modelled as
the word list, all uses being membership and subset tests. -/
def normalize_name (name : Str) : List Str :=
  split_words (name.map Char.toLower)

/-- Embeds `_names_match` (src/src/services/calcom.py lines 343-370): both
names nonempty (Python truthiness of the raw strings) and the user-provided
word set a subset of the stored one. -/
def names_match (user_provided_name stored_name : Str) : Bool :=
  if user_provided_name = [] ∨ stored_name = [] then false
  else (normalize_name user_provided_name).all fun w => (normalize_name stored_name).contains w

/-- Embeds `_normalize_phone` (src/src/services/calcom.py lines 401-414):
keep only digit characters. -/
def normalize_phone (phone : Str) : Str :=
  phone.filter Char.isDigit

/-- Embeds `_phones_match` (src/src/services/calcom.py lines 417-438): both
nonempty and equal after digit normalization. -/
def phones_match (user_phone booking_phone : Str) : Bool :=
  if user_phone = [] ∨ booking_phone = [] then false
  else normalize_phone user_phone == normalize_phone booking_phone

/-- Lexicographic comparison by character code points: Python's `<=` on
strings, used by the `sort(key=lambda b: b.get('start', ''))` calls. -/
def str_le_b : Str → Str → Bool
  | [], _ => true
  | _ :: _, [] => false
  | c :: cs, d :: ds => if c < d then true else if d < c then false else str_le_b cs ds

/-- One attendee of a remote booking (`booking["attendees"][i]`). -/
structure Attendee where
  name : Str
  email : Str
  phone : Option Str
deriving DecidableEq, Repr

/-- A remote booking as consumed by the matcher.  `startStr` is the raw
`booking["start"]` string, used for ordering with Python string comparison;
`startParsed` is the result of `datetime.fromisoformat` on that string
(`none` when it would raise); `bookingFieldsPhone` is
`booking["bookingFieldsResponses"]["phone"]`. -/
structure MBooking where
  uid : Str
  startStr : Str
  startParsed : Option ParsedTs
  attendees : List Attendee
  bookingFieldsPhone : Option Str
deriving DecidableEq, Repr

/-- Embeds `_extract_attendee_phone` (src/src/services/calcom.py lines
373-398): the booking-form phone field wins when truthy, else the first
attendee's phone when truthy, else `none`. -/
def extract_attendee_phone (b : MBooking) : Option Str :=
  let from_fields : Option Str :=
    match b.bookingFieldsPhone with
    | some p => if p = [] then none else some p
    | none => none
  match from_fields with
  | some p => some p
  | none =>
    match b.attendees with
    | [] => none
    | a :: _ =>
      match a.phone with
      | some p => if p = [] then none else some p
      | none => none

/-- The `appointment_time` argument of `_matches_appointment_time`, modelled
by the branch of the source's decision tree the string falls into: a string
containing `"T"` with its `fromisoformat` result (`none` when parsing raises
and the string then fails the later branches too), an `"HH:MM"`-style clock
string with its integer fields and AM/PM markers, or anything unparsable. -/
inductive TimeQuery
  | isoStr (parsed : Option ParsedTs)
  | clockStr (hour minute : Int) (hasPM hasAM : Bool)
  | malformed
deriving DecidableEq, Repr

/-- Embeds `_matches_appointment_time` (src/src/services/calcom.py lines
683-768).  The booking start is converted to the user timezone
(`user_offset` minutes from UTC); a full ISO query compares calendar date and
hour, a clock query compares hour and minute after 12-hour conversion; any
parse failure makes the function return `False` rather than raise.  A
timezone-naive booking start, which `astimezone` would interpret in the
process-local timezone, is modelled as UTC. -/
def matches_appointment_time (b : MBooking) (q : TimeQuery) (user_offset : Int) : Bool :=
  match b.startParsed with
  | none => false
  | some ts =>
    let booking_local := ts.utc + user_offset
    match q with
    | .isoStr none => false
    | .isoStr (some r) =>
      let requested_local :=
        match r.offset with
        | some o => (r.wall - o) + user_offset
        | none => r.wall
      decide ((booking_local / 1440) = (requested_local / 1440) ∧
        ((booking_local % 1440) / 60) = ((requested_local % 1440) / 60))
    | .clockStr h m pm am =>
      let search_hour := if pm ∧ h ≠ 12 then h + 12 else if am ∧ h = 12 then 0 else h
      decide (((booking_local % 1440) / 60) = search_hour ∧
        (booking_local % 60) = m)
    | .malformed => false

/-- The per-candidate filter of `find_booking_by_patient_info` /
`find_all_bookings_by_patient_info` (src/src/services/calcom.py lines
530-562 and 652-668): skip bookings without attendees; apply the name, phone
and time filters only when the corresponding argument is truthy (a supplied
empty string is falsy in Python and skips the filter, like `none`). -/
def booking_passes (b : MBooking) (patient_name patient_phone : Option Str)
    (q : Option TimeQuery) (user_offset : Int) : Bool :=
  match b.attendees with
  | [] => false
  | attendee :: _ =>
    (match patient_name with
      | some nm => if nm = [] then true else names_match nm attendee.name
      | none => true) &&
    (match patient_phone with
      | some ph =>
        if ph = [] then true else
          match extract_attendee_phone b with
          | none => false
          | some bp => phones_match ph bp
      | none => true) &&
    (match q with
      | some tq => matches_appointment_time b tq user_offset
      | none => true)

/-- Ascending comparison on the raw `start` strings, as used by the Python
`sort(key=lambda b: b.get('start', ''))`. -/
def start_le (a b : MBooking) : Prop := str_le_b a.startStr b.startStr = true

/-- Descending comparison on the raw `start` strings, as used by
`sorted(..., key=..., reverse=True)`. -/
def start_ge (a b : MBooking) : Prop := str_le_b b.startStr a.startStr = true

instance : DecidableRel start_le := fun a b =>
  inferInstanceAs (Decidable (str_le_b a.startStr b.startStr = true))

instance : DecidableRel start_ge := fun a b =>
  inferInstanceAs (Decidable (str_le_b b.startStr a.startStr = true))

theorem str_le_b_total : ∀ a b : Str, str_le_b a b = true ∨ str_le_b b a = true := by
  intro a
  induction a with
  | nil => intro b; left; rfl
  | cons c cs ih =>
    intro b
    cases b with
    | nil => right; rfl
    | cons d ds =>
      rcases lt_trichotomy c d with h | h | h
      · left; simp [str_le_b, h]
      · subst h
        rcases ih ds with h2 | h2
        · left; simp [str_le_b, lt_irrefl, h2]
        · right; simp [str_le_b, lt_irrefl, h2]
      · right; simp [str_le_b, h]

theorem str_le_b_trans : ∀ a b c : Str, str_le_b a b = true → str_le_b b c = true →
    str_le_b a c = true := by
  intro a
  induction a with
  | nil => intro b c _ _; rfl
  | cons x xs ih =>
    intro b c hab hbc
    cases b with
    | nil => simp [str_le_b] at hab
    | cons y ys =>
      cases c with
      | nil => simp [str_le_b] at hbc
      | cons z zs =>
        simp only [str_le_b] at hab hbc ⊢
        by_cases hxy : x < y
        · by_cases hyz : y < z
          · simp [lt_trans hxy hyz]
          · by_cases hzy : z < y
            · simp only [if_neg hyz, if_pos hzy] at hbc
              exact Bool.noConfusion hbc
            · have hyz2 : y = z := le_antisymm (not_lt.mp hzy) (not_lt.mp hyz)
              subst hyz2
              simp [hxy]
        · by_cases hyx : y < x
          · simp only [if_neg hxy, if_pos hyx] at hab
            exact Bool.noConfusion hab
          · have hxy2 : x = y := le_antisymm (not_lt.mp hyx) (not_lt.mp hxy)
            subst hxy2
            by_cases hxz : x < z
            · simp [hxz]
            · by_cases hzx : z < x
              · simp only [if_neg hxz, if_pos hzx] at hbc
                exact Bool.noConfusion hbc
              · simp only [if_neg hxy, if_neg hxy] at hab
                simp only [if_neg hxz, if_neg hzx] at hbc ⊢
                exact ih ys zs hab hbc

instance : IsTotal MBooking start_le := ⟨fun a b => str_le_b_total a.startStr b.startStr⟩

instance : IsTrans MBooking start_le :=
  ⟨fun _ _ _ h1 h2 => str_le_b_trans _ _ _ h1 h2⟩

instance : IsTotal MBooking start_ge := ⟨fun a b => str_le_b_total b.startStr a.startStr⟩

instance : IsTrans MBooking start_ge :=
  ⟨fun _ _ _ h1 h2 => str_le_b_trans _ _ _ h2 h1⟩

/-- Embeds the matching-and-selection core of `find_booking_by_patient_info`
(src/src/services/calcom.py lines 527-577), after the remote fetch: filter
the fetched bookings, return `none` when nothing matches, the unique match
when there is one, and otherwise the head of the list sorted by descending
`start` string (the source's `sorted(..., reverse=True)[0]`; Python's sort
and insertion sort are both stable). -/
def find_booking_by_patient_info (bookings : List MBooking)
    (patient_name patient_phone : Option Str) (q : Option TimeQuery)
    (user_offset : Int) : Option MBooking :=
  let matching := bookings.filter fun b => booking_passes b patient_name patient_phone q user_offset
  match matching with
  | [] => none
  | [b] => some b
  | _ => (List.insertionSort start_ge matching).head?

/-- Embeds the matching-and-selection core of
`find_all_bookings_by_patient_info` (src/src/services/calcom.py lines
650-676): filter the fetched bookings (no time filter exists here) and
return all matches sorted with `matching_bookings.sort(key=...)`, i.e. by
ascending `start` string. -/
def find_all_bookings_by_patient_info (bookings : List MBooking)
    (patient_name patient_phone : Option Str) : List MBooking :=
  let matching := bookings.filter fun b => booking_passes b patient_name patient_phone none 0
  List.insertionSort start_le matching

/-- The shape of a `cancel_appointment` response as inspected by the
`is_cancel_error` check of `reschedule_appointment`
(src/src/tools/appointments.py lines 870-879): whether `status` equals
`"error"`, `"DRY_RUN"` or `"cancelled"`, whether an `"error"` key exists and
whether a truthy `"data"` entry exists. -/
structure CancelResp where
  statusIsError : Bool
  statusIsDryRun : Bool
  hasErrorKey : Bool
  hasData : Bool
  statusIsCancelled : Bool
deriving DecidableEq, Repr

/-- The `is_cancel_error` predicate of `reschedule_appointment`
(src/src/tools/appointments.py lines 872-879). -/
def is_cancel_error (c : CancelResp) : Bool :=
  c.statusIsError || c.statusIsDryRun || c.hasErrorKey || (!c.hasData && !c.statusIsCancelled)

/-- The shape of a `book_appointment` response as inspected by
`reschedule_appointment` (line 905): whether `status` equals `"error"`. -/
structure BookResp where
  statusIsError : Bool
deriving DecidableEq, Repr

/-- The remote calendar-service calls the reschedule execution can issue. -/
inductive RemoteOp
  | cancelOld
  | bookNew
deriving DecidableEq, Repr

/-- User-facing outcome of the reschedule execution core
(src/src/tools/appointments.py lines 865-982):
`cancelDifficulty` = "found your appointment ... difficulty cancelling it";
`techIssue` = the outer `except` branch;
`duplicateTime` = "you're choosing the same time as your current appointment
... please choose a different time" (the `DuplicateTimeRequested` outcome);
`newSlotUnavailable` = "I was able to cancel your old appointment, but the
new time slot is no longer available";
`rescheduled` = the success confirmation. -/
inductive RescheduleOutcome
  | cancelDifficulty
  | techIssue
  | duplicateTime
  | newSlotUnavailable
  | rescheduled
deriving DecidableEq, Repr

/-- Hour-and-minute key of a wall-clock value: Python's
`strftime('%H:%M')` on two datetimes yields equal strings iff their
minutes-of-day agree. -/
def hm_of (wall : Int) : Int := (wall % 1440)

/-- Embeds the cancel-then-book execution core of `reschedule_appointment`
(src/src/tools/appointments.py lines 865-915), with the remote responses
supplied as oracles.  `old_start` is `booking_to_reschedule.get('start')`
(outer `none` = key missing/falsy, inner `none` = `fromisoformat` raises,
which the outer `except` turns into the generic technical-issue reply).
The returned list records the remote calls issued, in order.  Note the
source's ordering: the remote cancel is issued first, and only afterwards
is the same-hour:minute duplicate check performed (lines 891-901), each
timestamp formatted with `strftime('%H:%M')` in its own offset. -/
def reschedule_exec (old_start : Option (Option ParsedTs)) (new_time : ParsedTs)
    (cancel : CancelResp) (book : BookResp) : RescheduleOutcome × List RemoteOp :=
  if is_cancel_error cancel then (.cancelDifficulty, [.cancelOld])
  else
    match old_start with
    | some none => (.techIssue, [.cancelOld])
    | some (some ot) =>
      if hm_of ot.wall = hm_of new_time.wall then (.duplicateTime, [.cancelOld])
      else if book.statusIsError then (.newSlotUnavailable, [.cancelOld, .bookNew])
      else (.rescheduled, [.cancelOld, .bookNew])
    | none =>
      if book.statusIsError then (.newSlotUnavailable, [.cancelOld, .bookNew])
      else (.rescheduled, [.cancelOld, .bookNew])

/-- The duplicate-time guard of `reschedule_appointment` does not fire and the
stored start does not abort the attempt: either no stored start is available,
or it parses and its hour:minute differs from the requested new time's. -/
def dup_guard_clear (old_start : Option (Option ParsedTs)) (new_time : ParsedTs) : Bool :=
  match old_start with
  | none => true
  | some none => false
  | some (some ot) => hm_of ot.wall != hm_of new_time.wall

/-! ### Helper lemmas -/

theorem str_le_b_refl : ∀ a : Str, str_le_b a a = true := by
  intro a
  induction a with
  | nil => rfl
  | cons c cs ih => simp [str_le_b, lt_irrefl, ih]

theorem slot_loop_mem : ∀ (n : Nat) (cur work_end dur min_booking s : Int),
    s ∈ slot_loop n cur work_end dur min_booking →
    min_booking ≤ s ∧ s + dur ≤ work_end ∧ ∃ k : Nat, s = cur + (k : Int) * dur := by
  intro n
  induction n with
  | zero => intro cur we dur mb s hs; simp [slot_loop] at hs
  | succ n ih =>
    intro cur we dur mb s hs
    simp only [slot_loop] at hs
    by_cases hc : cur + dur ≤ we
    · rw [if_pos hc, List.mem_append] at hs
      rcases hs with hs | hs
      · by_cases hm : mb ≤ cur
        · rw [if_pos hm, List.mem_singleton] at hs
          subst hs
          exact ⟨hm, hc, 0, by ring⟩
        · rw [if_neg hm] at hs
          simp at hs
      · obtain ⟨h1, h2, k, hk⟩ := ih (cur + dur) we dur mb s hs
        exact ⟨h1, h2, k + 1, by push_cast [hk]; ring⟩
    · rw [if_neg hc] at hs
      simp at hs

theorem day_loop_mem : ∀ (n : Nat) (d end_local : Int) (work_days : List Int)
    (work_start work_end_min dur min_booking dk : Int) (l : List Int),
    (dk, l) ∈ day_loop n d end_local work_days work_start work_end_min dur min_booking →
    isoweekday dk ∈ work_days ∧ l ≠ [] ∧ dk * 1440 ≤ end_local ∧ d ≤ dk ∧
      ∀ s ∈ l, min_booking ≤ s ∧ s + dur ≤ dk * 1440 + work_end_min ∧
        ∃ k : Nat, s = dk * 1440 + work_start + (k : Int) * dur := by
  intro n
  induction n with
  | zero => intro d eL wd ws wem dur mb dk l h; simp [day_loop] at h
  | succ n ih =>
    intro d eL wd ws wem dur mb dk l h
    simp only [day_loop] at h
    by_cases hc : d * 1440 ≤ eL
    · rw [if_pos hc, List.mem_append] at h
      rcases h with h | h
      · by_cases hw : isoweekday d ∈ wd
        · rw [if_pos hw] at h
          by_cases hempty :
              slot_loop (slot_fuel (d * 1440 + 60 * (ws / 60) + (ws % 60))
                  (d * 1440 + 60 * (wem / 60) + (wem % 60)) dur)
                (d * 1440 + 60 * (ws / 60) + (ws % 60))
                (d * 1440 + 60 * (wem / 60) + (wem % 60)) dur mb = []
          · rw [if_pos hempty] at h
            simp at h
          · rw [if_neg hempty, List.mem_singleton, Prod.mk.injEq] at h
            obtain ⟨hdk, hl⟩ := h
            subst hdk
            refine ⟨hw, hl ▸ hempty, hc, le_refl _, ?_⟩
            intro s hs
            rw [hl] at hs
            obtain ⟨h1, h2, k, hk⟩ := slot_loop_mem _ _ _ _ _ _ hs
            have hws : 60 * (ws / 60) + (ws % 60) = ws := by omega
            have hwem : 60 * (wem / 60) + (wem % 60) = wem := by omega
            refine ⟨h1, by omega, k, by omega⟩
        · rw [if_neg hw] at h
          simp at h
      · obtain ⟨h1, h2, h3, h4, h5⟩ := ih (d + 1) eL wd ws wem dur mb dk l h
        exact ⟨h1, h2, h3, by omega, h5⟩
    · rw [if_neg hc] at h
      simp at h

theorem generate_slots_mem (schedule : Schedule) (start_local end_local : Int)
    (duration_minutes ambient_now_local : Int) (rule : WorkRule) (rest : List WorkRule)
    (hwh : schedule.workingHours = rule :: rest) :
    ∀ dk l, (dk, l) ∈ generate_slots_from_schedule schedule start_local end_local
        duration_minutes ambient_now_local →
      isoweekday dk ∈ rule.days ∧ l ≠ [] ∧ dk * 1440 ≤ end_local ∧
        ∀ s ∈ l, ambient_now_local + 10 ≤ s ∧ s + duration_minutes ≤ dk * 1440 + rule.endTime ∧
          ∃ k : Nat, s = dk * 1440 + rule.startTime + (k : Int) * duration_minutes := by
  intro dk l h
  unfold generate_slots_from_schedule at h
  rw [hwh] at h
  obtain ⟨h1, h2, h3, _, h5⟩ := day_loop_mem _ _ _ _ _ _ _ _ _ _ h
  exact ⟨h1, h2, h3, h5⟩

theorem filter_available_subset (m : List (Int × List Int)) (blocked : List (Int × Int))
    (dur : Int) : ∀ dk l, (dk, l) ∈ filter_available m blocked dur →
      ∃ l0, (dk, l0) ∈ m ∧ ∀ s ∈ l, s ∈ l0 := by
  intro dk l h
  unfold filter_available at h
  rw [List.mem_filter] at h
  obtain ⟨h1, _⟩ := h
  rw [List.mem_map] at h1
  obtain ⟨p, hp, he⟩ := h1
  injection he with he1 he2
  refine ⟨p.2, ?_, ?_⟩
  · rw [← he1]; exact hp
  · intro s hs
    rw [← he2] at hs
    exact List.mem_of_mem_filter hs

theorem filter_available_keys (m : List (Int × List Int)) (blocked : List (Int × Int))
    (dur : Int) : ∀ p ∈ filter_available m blocked dur, p.1 ∈ m.map Prod.fst := by
  intro p hp
  unfold filter_available at hp
  rw [List.mem_filter] at hp
  obtain ⟨h1, _⟩ := hp
  rw [List.mem_map] at h1
  obtain ⟨q, hq, he⟩ := h1
  rw [List.mem_map]
  exact ⟨q, hq, by rw [← he]⟩

theorem lookup_day_cons_self (k : Int) (l : List Int) (t : List (Int × List Int)) :
    lookup_day ((k, l) :: t) k = l := by
  unfold lookup_day
  rw [List.find?_cons_of_pos _ (by simp)]

theorem lookup_day_cons_ne (k d : Int) (l : List Int) (t : List (Int × List Int))
    (h : k ≠ d) : lookup_day ((k, l) :: t) d = lookup_day t d := by
  unfold lookup_day
  rw [List.find?_cons_of_neg _ (by simp [h])]

theorem lookup_day_eq_nil_of_not_mem (m : List (Int × List Int)) (d : Int)
    (h : d ∉ m.map Prod.fst) : lookup_day m d = [] := by
  unfold lookup_day
  cases hf : m.find? (fun p => p.1 == d) with
  | none => rfl
  | some p =>
    have hp := List.find?_some hf
    have hp2 : (p.1 == d) = true := hp
    have hpm : p ∈ m := List.mem_of_find?_eq_some hf
    exact absurd (List.mem_map.mpr ⟨p, hpm, eq_of_beq hp2⟩) h

theorem lookup_filter_available (blocked : List (Int × Int)) (dur : Int) :
    ∀ m : List (Int × List Int), (m.map Prod.fst).Nodup →
      ∀ d, lookup_day (filter_available m blocked dur) d =
        (lookup_day m d).filter (fun s => !slot_blocked s dur blocked) := by
  intro m
  induction m with
  | nil => intro _ d; simp [filter_available, lookup_day]
  | cons p t ih =>
    intro hnd d
    obtain ⟨k, l⟩ := p
    rw [List.map_cons, List.nodup_cons] at hnd
    obtain ⟨hk, hndt⟩ := hnd
    have hstep : filter_available ((k, l) :: t) blocked dur =
        (if !(l.filter (fun s => !slot_blocked s dur blocked)).isEmpty then
          (k, l.filter (fun s => !slot_blocked s dur blocked)) :: filter_available t blocked dur
        else filter_available t blocked dur) := by
      simp only [filter_available, List.map_cons, List.filter_cons]
    by_cases hd : k = d
    · subst hd
      rw [lookup_day_cons_self]
      by_cases hempty : (l.filter (fun s => !slot_blocked s dur blocked)).isEmpty
      · rw [hstep, if_neg (by simp [hempty])]
        rw [lookup_day_eq_nil_of_not_mem _ _ ?not_mem]
        case not_mem =>
          intro hmem
          rw [List.mem_map] at hmem
          obtain ⟨q, hq, hqe⟩ := hmem
          exact hk (hqe ▸ filter_available_keys t blocked dur q hq)
        exact (List.isEmpty_iff.mp hempty).symm
      · rw [hstep, if_pos (by simp [hempty]), lookup_day_cons_self]
    · rw [lookup_day_cons_ne _ _ _ _ hd, hstep]
      by_cases hempty : (l.filter (fun s => !slot_blocked s dur blocked)).isEmpty
      · rw [if_neg (by simp [hempty])]
        exact ih hndt d
      · rw [if_pos (by simp [hempty]), lookup_day_cons_ne _ _ _ _ hd]
        exact ih hndt d

/-! ### Claim theorems -/

/-- C1 (code bug): a reschedule request whose `new_time` equals the existing
booking's time at hour:minute granularity does *not* return the duplicate-time
outcome without contacting the remote service.  The source issues the remote
cancel first (appointments.py line 868) and performs the duplicate check only
afterwards (lines 891-901).  At this concrete input — stored start 10:00+05:30,
new start 10:00+05:30 one day later, remote cancel succeeding — the embedded
execution returns the duplicate-time outcome with the remote cancel already
issued, so the existing booking has been cancelled remotely while the reply
tells the caller to pick a different time as if it still existed. -/
theorem c1_duplicate_time_cancels_remotely :
    hm_of 600 = hm_of 2040 ∧
    is_cancel_error ⟨false, false, false, true, true⟩ = false ∧
    reschedule_exec (some (some ⟨600, some 330⟩)) ⟨2040, some 330⟩
      ⟨false, false, false, true, true⟩ ⟨false⟩ =
      (.duplicateTime, [.cancelOld]) := by
  decide

/-- C2 (amended): for every reschedule execution in which the duplicate-time
guard does not fire (the stored start is absent, or parses with an hour:minute
different from the new time's), the operation issues remote calls in the
order cancel-old then book-new: a failing cancel aborts with only the cancel
call issued and the original appointment reported intact; a failing book
after a successful cancel reports that the caller has no appointment and must
pick a new time, exactly the two calls having been issued in order; success
likewise issues exactly the two calls in order. -/
theorem c2_reschedule_two_phase (old_start : Option (Option ParsedTs)) (new_time : ParsedTs)
    (cancel : CancelResp) (book : BookResp)
    (hguard : dup_guard_clear old_start new_time = true) :
    (is_cancel_error cancel = true →
      reschedule_exec old_start new_time cancel book = (.cancelDifficulty, [.cancelOld])) ∧
    (is_cancel_error cancel = false → book.statusIsError = true →
      reschedule_exec old_start new_time cancel book =
        (.newSlotUnavailable, [.cancelOld, .bookNew])) ∧
    (is_cancel_error cancel = false → book.statusIsError = false →
      reschedule_exec old_start new_time cancel book =
        (.rescheduled, [.cancelOld, .bookNew])) := by
  refine ⟨fun hc => by simp [reschedule_exec, hc], ?_, ?_⟩
  · intro hc hbk
    rcases old_start with _ | (_ | ot)
    · simp [reschedule_exec, hc, hbk]
    · simp [dup_guard_clear] at hguard
    · have hne : ¬ hm_of ot.wall = hm_of new_time.wall := by
        simpa [dup_guard_clear] using hguard
      simp [reschedule_exec, hc, hbk, hne]
  · intro hc hbk
    rcases old_start with _ | (_ | ot)
    · simp [reschedule_exec, hc, hbk]
    · simp [dup_guard_clear] at hguard
    · have hne : ¬ hm_of ot.wall = hm_of new_time.wall := by
        simpa [dup_guard_clear] using hguard
      simp [reschedule_exec, hc, hbk, hne]

/-- Witness for C2 at a concrete input: stored start 10:00+05:30, new time
11:00+05:30 (different hour), remote cancel and remote booking succeeding. -/
theorem c2_reschedule_two_phase_witness :
    dup_guard_clear (some (some ⟨600, some 330⟩)) ⟨660, some 330⟩ = true ∧
    is_cancel_error ⟨false, false, false, true, true⟩ = false ∧
    reschedule_exec (some (some ⟨600, some 330⟩)) ⟨660, some 330⟩
      ⟨false, false, false, true, true⟩ ⟨false⟩ = (.rescheduled, [.cancelOld, .bookNew]) :=
  ⟨by decide, by decide,
    (c2_reschedule_two_phase (some (some ⟨600, some 330⟩)) ⟨660, some 330⟩
      ⟨false, false, false, true, true⟩ ⟨false⟩ (by decide)).2.2 (by decide) (by decide)⟩

/-- C2 counterexample: a duplicate-time reschedule request (stored 10:30+05:30,
new 10:30+05:30 two days later) with the remote cancel succeeding issues only
the cancel-old call, not the cancel-then-book pair, and answers with the
duplicate-time message — presenting the already-cancelled booking as still
current instead of reporting that no appointment remains. -/
theorem c2_counterexample :
    is_cancel_error ⟨false, false, false, true, true⟩ = false ∧
    reschedule_exec (some (some ⟨630, some 330⟩)) ⟨3510, some 330⟩
      ⟨false, false, false, true, true⟩ ⟨false⟩ = (.duplicateTime, [.cancelOld]) ∧
    [RemoteOp.cancelOld] ≠ [RemoteOp.cancelOld, RemoteOp.bookNew] := by
  decide

/-- C3: every slot produced by the slot generator lies on a result-key day
whose ISO weekday belongs to the rule's weekday set, has its minute-of-day in
`[startTime, endTime)` with `minute-of-day + duration ≤ endTime`, and starts
no earlier than ambient-now + 10 minutes; days producing zero eligible slots
do not appear as keys (every emitted entry carries a nonempty slot list).
The hypotheses restrict to inputs on which the Python source terminates
without raising: positive duration and hour/minute fields inside one day. -/
theorem c3_slot_generator_bounds (schedule : Schedule) (start_local end_local : Int)
    (duration_minutes ambient_now_local : Int) (rule : WorkRule) (rest : List WorkRule)
    (hwh : schedule.workingHours = rule :: rest) (hdur : 1 ≤ duration_minutes)
    (hrs : 0 ≤ rule.startTime) (hre : rule.endTime ≤ 1439) :
    ∀ dk l, (dk, l) ∈ generate_slots_from_schedule schedule start_local end_local
        duration_minutes ambient_now_local →
      l ≠ [] ∧ isoweekday dk ∈ rule.days ∧
      ∀ s ∈ l, s / 1440 = dk ∧ rule.startTime ≤ s % 1440 ∧ s % 1440 < rule.endTime ∧
        s % 1440 + duration_minutes ≤ rule.endTime ∧ ambient_now_local + 10 ≤ s := by
  intro dk l h
  obtain ⟨h1, h2, _, h4⟩ := generate_slots_mem schedule start_local end_local duration_minutes
    ambient_now_local rule rest hwh dk l h
  refine ⟨h2, h1, ?_⟩
  intro s hs
  obtain ⟨ha, hb, k, hk⟩ := h4 s hs
  have hk0 : (0 : Int) ≤ (k : Int) * duration_minutes :=
    mul_nonneg (Int.natCast_nonneg k) (by omega)
  set K := (k : Int) * duration_minutes with hKdef
  refine ⟨by omega, by omega, by omega, by omega, ha⟩

/-- Witness for C3 at a concrete input: Mondays 10:00-14:00, 30-minute slots,
a one-day window, ambient now at the local epoch. -/
theorem c3_slot_generator_bounds_witness :
    (Schedule.mk [⟨[1], 600, 840⟩]).workingHours = ⟨[1], 600, 840⟩ :: [] ∧
    (1 : Int) ≤ 30 ∧ (0 : Int) ≤ 600 ∧ (840 : Int) ≤ 1439 ∧
    (∀ dk l, (dk, l) ∈ generate_slots_from_schedule ⟨[⟨[1], 600, 840⟩]⟩ 0 1439 30 0 →
      l ≠ [] ∧ isoweekday dk ∈ ([1] : List Int) ∧
      ∀ s ∈ l, s / 1440 = dk ∧ (600 : Int) ≤ s % 1440 ∧ s % 1440 < 840 ∧
        s % 1440 + 30 ≤ 840 ∧ (0 : Int) + 10 ≤ s) :=
  ⟨rfl, by decide, by decide, by decide,
    c3_slot_generator_bounds ⟨[⟨[1], 600, 840⟩]⟩ 0 1439 30 0 ⟨[1], 600, 840⟩ [] rfl
      (by decide) (by decide) (by decide)⟩

/-- C4: the availability filter excludes a slot from a date's list iff some
busy interval satisfies `slot.start < busy.end` and `busy.start < slot.start +
duration` (half-open intersection), dates whose lists become empty being
omitted; and a slot that starts exactly when a busy interval ends, or ends
exactly when one starts, is never blocked by that interval (adjacency is
allowed). -/
theorem c4_overlap_filter (m : List (Int × List Int)) (blocked : List (Int × Int)) (dur : Int) :
    ((m.map Prod.fst).Nodup →
      ∀ d, lookup_day (filter_available m blocked dur) d =
        (lookup_day m d).filter (fun s => !slot_blocked s dur blocked)) ∧
    (∀ s, slot_blocked s dur blocked = true ↔ ∃ bk ∈ blocked, s < bk.2 ∧ bk.1 < s + dur) ∧
    (∀ s bst ben, s = ben → slot_blocked s dur [(bst, ben)] = false) ∧
    (∀ s bst ben, s + dur = bst → slot_blocked s dur [(bst, ben)] = false) := by
  refine ⟨fun h d => lookup_filter_available blocked dur m h d, ?_, ?_, ?_⟩
  · intro s
    simp [slot_blocked, List.any_eq_true]
  · intro s bst ben hadj
    subst hadj
    simp [slot_blocked]
  · intro s bst ben hadj
    subst hadj
    simp [slot_blocked]

/-- Witness for C4 at a concrete input: one Monday with two slots, one busy
interval adjacent to the first slot. -/
theorem c4_overlap_filter_witness :
    (([(0, [540, 570])] : List (Int × List Int)).map Prod.fst).Nodup ∧
    (∀ d, lookup_day (filter_available [(0, [540, 570])] [(570, 600)] 30) d =
      (lookup_day [(0, [540, 570])] d).filter (fun s => !slot_blocked s 30 [(570, 600)])) :=
  ⟨by decide, (c4_overlap_filter [(0, [540, 570])] [(570, 600)] 30).1 (by decide)⟩

/-- C5 (amended): when several candidates pass the matcher's filters,
`find_booking_by_patient_info` returns a match whose raw `start` string is
greatest (lexicographically — descending-first pick), while
`find_all_bookings_by_patient_info` returns exactly the matches sorted by
*ascending* start string (the source's `sort(key=...)` without `reverse`),
not descending as claimed. -/
theorem c5_matcher_ordering (bookings : List MBooking) (pn pp : Option Str)
    (q : Option TimeQuery) (uo : Int) :
    (∀ b, find_booking_by_patient_info bookings pn pp q uo = some b →
      b ∈ bookings ∧ booking_passes b pn pp q uo = true ∧
      ∀ x ∈ bookings, booking_passes x pn pp q uo = true →
        str_le_b x.startStr b.startStr = true) ∧
    List.Sorted start_le (find_all_bookings_by_patient_info bookings pn pp) ∧
    List.Perm (find_all_bookings_by_patient_info bookings pn pp)
      (bookings.filter (fun b => booking_passes b pn pp none 0)) := by
  refine ⟨?_, ?_, ?_⟩
  · intro b hb
    unfold find_booking_by_patient_info at hb
    rcases hm : bookings.filter (fun x => booking_passes x pn pp q uo) with _ | ⟨b0, _ | ⟨b1, t1⟩⟩
    · rw [hm] at hb
      exact Option.noConfusion hb
    · rw [hm] at hb
      have hb0 : some b0 = some b := hb
      injection hb0 with hb0
      subst hb0
      have hbm : b0 ∈ bookings.filter (fun x => booking_passes x pn pp q uo) := by
        rw [hm]; exact List.mem_cons_self _ _
      rw [List.mem_filter] at hbm
      refine ⟨hbm.1, hbm.2, ?_⟩
      intro x hx hpass
      have hxm : x ∈ bookings.filter (fun y => booking_passes y pn pp q uo) :=
        List.mem_filter.mpr ⟨hx, hpass⟩
      rw [hm, List.mem_singleton] at hxm
      subst hxm
      exact str_le_b_refl _
    · rw [hm] at hb
      have hb2 : (List.insertionSort start_ge (b0 :: b1 :: t1)).head? = some b := hb
      have hsorted := List.sorted_insertionSort start_ge (b0 :: b1 :: t1)
      have hperm := List.perm_insertionSort start_ge (b0 :: b1 :: t1)
      rcases hsl : List.insertionSort start_ge (b0 :: b1 :: t1) with _ | ⟨c, cs⟩
      · rw [hsl] at hb2
        exact Option.noConfusion hb2
      · rw [hsl] at hb2 hsorted hperm
        have hcb : some c = some b := hb2
        injection hcb with hcb
        subst hcb
        have hcm : c ∈ bookings.filter (fun x => booking_passes x pn pp q uo) := by
          rw [hm]
          exact hperm.mem_iff.mp (List.mem_cons_self _ _)
        rw [List.mem_filter] at hcm
        refine ⟨hcm.1, hcm.2, ?_⟩
        intro x hx hpass
        have hxm : x ∈ bookings.filter (fun y => booking_passes y pn pp q uo) :=
          List.mem_filter.mpr ⟨hx, hpass⟩
        rw [hm] at hxm
        have hxs : x ∈ c :: cs := hperm.mem_iff.mpr hxm
        rcases List.mem_cons.mp hxs with h | h
        · subst h; exact str_le_b_refl _
        · exact List.rel_of_sorted_cons hsorted x h
  · unfold find_all_bookings_by_patient_info
    exact List.sorted_insertionSort start_le _
  · unfold find_all_bookings_by_patient_info
    exact List.perm_insertionSort start_le _

/-- Witness for C5 at a concrete input: two matching bookings, the one with
the later start string being picked by `find_booking_by_patient_info`. -/
theorem c5_matcher_ordering_witness :
    let bA : MBooking := ⟨"u2".data, "2026-02-06T10:00:00Z".data, some ⟨700, some 0⟩,
      [⟨"rakesh jain".data, "fam@x.com".data, none⟩], none⟩
    let bB : MBooking := ⟨"u1".data, "2026-01-05T10:00:00Z".data, some ⟨600, some 0⟩,
      [⟨"naveen sharma".data, "fam@x.com".data, none⟩], none⟩
    bA ∈ [bA, bB] ∧ booking_passes bA none none none 0 = true ∧
      ∀ x ∈ [bA, bB], booking_passes x none none none 0 = true →
        str_le_b x.startStr bA.startStr = true :=
  (c5_matcher_ordering _ none none none 0).1 _ (by decide)

/-- C5 counterexample: with two matching bookings whose starts are
2026-01-05 and 2026-02-06, `find_all_bookings_by_patient_info` returns them
in ascending order — the later booking last, whose start string is *not*
`≤` the earlier one's — contradicting the claimed descending order. -/
theorem c5_counterexample :
    find_all_bookings_by_patient_info
      [⟨"u1".data, "2026-01-05T10:00:00Z".data, some ⟨600, some 0⟩,
        [⟨"naveen sharma".data, "fam@x.com".data, none⟩], none⟩,
       ⟨"u2".data, "2026-02-06T10:00:00Z".data, some ⟨700, some 0⟩,
        [⟨"rakesh jain".data, "fam@x.com".data, none⟩], none⟩] none none =
    [⟨"u1".data, "2026-01-05T10:00:00Z".data, some ⟨600, some 0⟩,
        [⟨"naveen sharma".data, "fam@x.com".data, none⟩], none⟩,
     ⟨"u2".data, "2026-02-06T10:00:00Z".data, some ⟨700, some 0⟩,
        [⟨"rakesh jain".data, "fam@x.com".data, none⟩], none⟩] ∧
    str_le_b "2026-02-06T10:00:00Z".data "2026-01-05T10:00:00Z".data = false := by
  decide

/-- C6 (amended): the slot generator is a pure function of the rule, range,
duration *and the ambient-clock value it reads internally*: two invocations
with identical inputs and the same ambient `now` yield identical outputs. -/
theorem c6_generator_deterministic (schedule : Schedule)
    (start_local end_local duration_minutes : Int) (n1 n2 : Int) (h : n1 = n2) :
    generate_slots_from_schedule schedule start_local end_local duration_minutes n1 =
      generate_slots_from_schedule schedule start_local end_local duration_minutes n2 := by
  rw [h]

/-- Witness for C6 at a concrete input. -/
theorem c6_generator_deterministic_witness :
    (0 : Int) = 0 ∧
    generate_slots_from_schedule ⟨[⟨[1], 600, 840⟩]⟩ 0 1439 30 0 =
      generate_slots_from_schedule ⟨[⟨[1], 600, 840⟩]⟩ 0 1439 30 0 :=
  ⟨rfl, c6_generator_deterministic ⟨[⟨[1], 600, 840⟩]⟩ 0 1439 30 0 0 rfl⟩

/-- C6 counterexample: `now` is *not* an explicit parameter of the source
function — it is read from the ambient clock inside it (calcom.py line 132) —
so two invocations with identical rule, range, duration and timezone can
differ when the ambient clock has moved: here the 10:00 and 11:30 slots of
the day are dropped once the ambient clock reads 11:40. -/
theorem c6_counterexample :
    generate_slots_from_schedule ⟨[⟨[1], 600, 840⟩]⟩ 0 1439 30 0 ≠
      generate_slots_from_schedule ⟨[⟨[1], 600, 840⟩]⟩ 0 1439 30 700 := by
  decide

/-- C7 (amended): the weekend fast-path fires iff the floored day span is at
most 2 and the *start* day's ISO weekday (in the requested timezone) is
Saturday or Sunday.  Every range that touches only weekend days does fire the
fast-path (returning the closed reply before any remote call); the converse
of the claim fails because only the start day's weekday is inspected. -/
theorem c7_weekend_guard (s e o : Int) :
    (tools_weekend_guard s e o = .closedWeekend ↔
      (e - s) / 1440 ≤ 2 ∧ isoweekday ((s + o) / 1440) ∈ ([6, 7] : List Int)) ∧
    (s ≤ e → range_days_all_weekend s e o → tools_weekend_guard s e o = .closedWeekend) := by
  constructor
  · constructor
    · intro hg
      by_contra hcond
      have hproceed : tools_weekend_guard s e o = .proceedRemote := by
        unfold tools_weekend_guard
        exact if_neg hcond
      rw [hg] at hproceed
      exact ToolAvailability.noConfusion hproceed
    · intro hcond
      unfold tools_weekend_guard
      exact if_pos hcond
  · intro hse hall
    have hmono : (s + o) / 1440 ≤ (e + o) / 1440 := by omega
    have h6 := hall ((s + o) / 1440) le_rfl hmono
    rcases le_or_lt ((e - s) / 1440) 2 with hle | hgt
    · simp [tools_weekend_guard, hle, h6]
    · exfalso
      have hA := hall ((s + o) / 1440 + 1) (by omega) (by omega)
      have hB := hall ((s + o) / 1440 + 2) (by omega) (by omega)
      simp only [isoweekday, List.mem_cons, List.mem_singleton, List.not_mem_nil,
        or_false] at h6 hA hB
      omega

/-- Witness for C7 at a concrete input: a Saturday-only one-day window (day
index 5 is a Saturday) fires the fast-path, hence the closed reply is issued
without any remote call. -/
theorem c7_weekend_guard_witness :
    (5 * 1440 : Int) ≤ 5 * 1440 + 1439 ∧
    range_days_all_weekend (5 * 1440) (5 * 1440 + 1439) 0 ∧
    tools_weekend_guard (5 * 1440) (5 * 1440 + 1439) 0 = .closedWeekend := by
  have hall : range_days_all_weekend (5 * 1440) (5 * 1440 + 1439) 0 := by
    intro d h1 h2
    have hd : d = 5 := by omega
    subst hd
    decide
  exact ⟨by norm_num, hall, (c7_weekend_guard (5 * 1440) (5 * 1440 + 1439) 0).2 (by norm_num) hall⟩

/-- C7 counterexample: a Saturday-to-Monday span (floored span 2 days) fires
the fast-path even though it contains Monday, a working day — so the
fast-path does not fire *iff* the range spans non-working days exclusively. -/
theorem c7_counterexample :
    tools_weekend_guard (5 * 1440) (7 * 1440 + 600) 0 = .closedWeekend ∧
    ¬ range_days_all_weekend (5 * 1440) (7 * 1440 + 600) 0 := by
  constructor
  · decide
  · intro h
    have h7 := h 7 (by decide) (by decide)
    revert h7
    decide

/-- C8: the busy-interval construction is total over its raw input and skips
exactly the malformed records: the blocked set built from any booking list
equals the one built from its well-formed sublist, and consequently the
availability filtering result is unchanged by malformed records while every
well-formed record is still applied. -/
theorem c8_busy_filter_total (tz_offset : Int) :
    (∀ bookings : List RawBooking,
      build_blocked_times tz_offset bookings =
        build_blocked_times tz_offset (bookings.filter raw_booking_ok)) ∧
    (∀ (bookings : List RawBooking) (m : List (Int × List Int)) (dur : Int),
      filter_available m (build_blocked_times tz_offset bookings) dur =
        filter_available m (build_blocked_times tz_offset (bookings.filter raw_booking_ok)) dur) := by
  have hmain : ∀ bookings : List RawBooking,
      build_blocked_times tz_offset bookings =
        build_blocked_times tz_offset (bookings.filter raw_booking_ok) := by
    intro bookings
    induction bookings with
    | nil => rfl
    | cons b t ih =>
      rw [List.filter_cons]
      cases hb : b.start with
      | none =>
        have hok : raw_booking_ok b = false := by simp [raw_booking_ok, hb]
        rw [hok]
        simp only [Bool.false_eq_true, if_false]
        have hstep : build_blocked_times tz_offset (b :: t) = build_blocked_times tz_offset t := by
          simp [build_blocked_times, List.filterMap_cons, hb]
        rw [hstep, ih]
      | some inner =>
        cases inner with
        | none =>
          have hok : raw_booking_ok b = false := by simp [raw_booking_ok, hb]
          rw [hok]
          simp only [Bool.false_eq_true, if_false]
          have hstep : build_blocked_times tz_offset (b :: t) =
              build_blocked_times tz_offset t := by
            simp [build_blocked_times, List.filterMap_cons, hb]
          rw [hstep, ih]
        | some ts =>
          have hok : raw_booking_ok b = true := by simp [raw_booking_ok, hb]
          rw [hok]
          simp only [if_true]
          simp only [build_blocked_times, List.filterMap_cons, hb] at ih ⊢
          rw [ih]
  exact ⟨hmain, fun bookings m dur => by rw [hmain bookings]⟩

/-- C9 (amended): a timestamp without an explicit UTC offset is *accepted* at
the boundary, not rejected: `_ensure_iso_utc` raises only on unparsable
strings and interprets timezone-naive timestamps as UTC, and the reschedule
validation rejects exactly the strings `fromisoformat` cannot parse. -/
theorem c9_offsetless_accepted :
    (∀ t : Option ParsedTs, (ensure_iso_utc t = none ↔ t = none)) ∧
    (∀ w : Int, ensure_iso_utc (some ⟨w, none⟩) = some w) ∧
    (∀ p : Option ParsedTs, reschedule_validate_new_time p = true ↔ p ≠ none) := by
  refine ⟨?_, ?_, ?_⟩
  · intro t; cases t <;> simp [ensure_iso_utc]
  · intro w; rfl
  · intro p; cases p <;> simp [reschedule_validate_new_time]

/-- C9 counterexample: the parsable but offset-less timestamp 10:00 (naive)
is accepted — `_ensure_iso_utc` tags it as UTC and the reschedule validation
passes it — instead of being rejected with an invalid-timestamp outcome. -/
theorem c9_counterexample :
    ensure_iso_utc (some ⟨600, none⟩) = some 600 ∧
    ¬ ensure_iso_utc (some ⟨600, none⟩) = none ∧
    reschedule_validate_new_time (some ⟨600, none⟩) = true := by
  decide

/-- C10 (amended): the availability operation clamps the range by comparing
each caller timestamp's *own-offset* calendar date against the UTC dates of
today and today + 90 days: a start whose own wall-date is in the past is
moved to today 00:00 UTC, and an end whose own wall-date is beyond today +
90 is capped at today + 90 days 23:59:59 UTC.  Every returned slot's UTC
instant lies strictly after today's UTC midnight (it is at least
ambient-now + 10 minutes) and — given that `fromisoformat` offsets are
strictly between -24h and +24h, of which only the lower bound is needed —
strictly before today + 93 days.  The original 90-day bound fails twice:
day iteration happens in the working timezone, which can spill one local
day past the capped UTC end, and an offset-bearing caller end whose own
wall-date is ≤ day 90 but whose UTC instant is on day 91 escapes the cap
altogether, reaching UTC day 92. -/
theorem c10_availability_window (schedule : Schedule) (bookings : List RawBooking)
    (start_ts end_ts : ParsedTs) (tz_offset duration_minutes ambient_now_utc : Int)
    (rule : WorkRule) (rest : List WorkRule) (hwh : schedule.workingHours = rule :: rest)
    (hdur : 1 ≤ duration_minutes) (hre : rule.endTime ≤ 1439)
    (hoff : -1440 < end_ts.offset.getD 0) :
    ∀ dk l, (dk, l) ∈ (calcom_get_availability schedule bookings start_ts end_ts tz_offset
        duration_minutes ambient_now_utc).data →
      ∀ s ∈ l, 1440 * (ambient_now_utc / 1440) < s - tz_offset ∧
        s - tz_offset < 1440 * (ambient_now_utc / 1440) + 93 * 1440 := by
  intro dk l hmem s hs
  simp only [calcom_get_availability] at hmem
  obtain ⟨l0, hm0, hsub⟩ := filter_available_subset _ _ _ _ _ hmem
  obtain ⟨_, _, hday, hall⟩ := generate_slots_mem schedule _ _ _ _ rule rest hwh dk l0 hm0
  obtain ⟨hnow, hupper, _, _⟩ := hall s (hsub s hs)
  constructor
  · omega
  · split_ifs at hday with h1
    · omega
    · rcases hoffcase : end_ts.offset with _ | off
      · simp only [ParsedTs.utc, hoffcase] at hday
        omega
      · rw [hoffcase] at hoff
        simp only [Option.getD] at hoff
        simp only [ParsedTs.utc, hoffcase] at hday
        omega

/-- Witness for C10 at a concrete input: all-weekday rule 10:00-14:00,
30-minute slots, IST offset, a past start and a far future end (explicit
UTC offsets on both caller timestamps). -/
theorem c10_availability_window_witness :
    (Schedule.mk [⟨[1, 2, 3, 4, 5, 6, 7], 600, 840⟩]).workingHours =
      ⟨[1, 2, 3, 4, 5, 6, 7], 600, 840⟩ :: [] ∧
    (1 : Int) ≤ 30 ∧ (840 : Int) ≤ 1439 ∧
    (-1440 : Int) < (ParsedTs.mk (300 * 1440) (some 0)).offset.getD 0 ∧
    (∀ dk l, (dk, l) ∈ (calcom_get_availability ⟨[⟨[1, 2, 3, 4, 5, 6, 7], 600, 840⟩]⟩ []
        ⟨-10000, some 0⟩ ⟨300 * 1440, some 0⟩ 330 30 0).data →
      ∀ s ∈ l, 1440 * ((0 : Int) / 1440) < s - 330 ∧
        s - 330 < 1440 * ((0 : Int) / 1440) + 93 * 1440) :=
  ⟨rfl, by decide, by decide, by decide,
    c10_availability_window ⟨[⟨[1, 2, 3, 4, 5, 6, 7], 600, 840⟩]⟩ [] ⟨-10000, some 0⟩
      ⟨300 * 1440, some 0⟩ 330 30 0 ⟨[1, 2, 3, 4, 5, 6, 7], 600, 840⟩ [] rfl
      (by decide) (by decide) (by decide)⟩

/-- C10 counterexample, two parts, both with the working timezone 5h30 ahead
of UTC (offset 330), ambient now at UTC minute 0 (today = UTC day 0), an
all-weekday 10:00-14:00 rule and no busy bookings.  First, a caller range
reaching 200 days out (UTC-offset end, wall-date 200, so the cap fires):
the capped window still yields a slot at local minute 131640 — UTC instant
131310, on UTC day 91, after today + 90 days 23:59 — refuting the claimed
90-day bound.  Second, a caller end `day90 20:01` with offset `-23:59`
(wall-date exactly day 90, UTC instant on day 91): the end cap does *not*
fire, and the window yields a slot at local minute 133080 — UTC instant
132750, on UTC day 92, at least today + 92 days — so the cap can be escaped
entirely by an offset-bearing caller end. -/
theorem c10_counterexample :
    ((91, [131640]) ∈ (calcom_get_availability ⟨[⟨[1, 2, 3, 4, 5, 6, 7], 600, 840⟩]⟩ []
        ⟨0, some 0⟩ ⟨200 * 1440, some 0⟩ 330 200 0).data ∧
      ((131640 : Int) - 330) / 1440 = 91 ∧
      1440 * ((0 : Int) / 1440) + 90 * 1440 + 1439 < 131640 - 330) ∧
    ((92, [133080]) ∈ (calcom_get_availability ⟨[⟨[1, 2, 3, 4, 5, 6, 7], 600, 840⟩]⟩ []
        ⟨0, some 0⟩ ⟨90 * 1440 + 1201, some (-1439)⟩ 330 200 0).data ∧
      ((90 * 1440 + 1201 : Int)) / 1440 = 90 ∧
      ((133080 : Int) - 330) / 1440 = 92 ∧
      1440 * ((0 : Int) / 1440) + 92 * 1440 ≤ 133080 - 330) := by
  decide

end Dental
